import Mathlib

/-!
Verification of the gocatch diagnostic-reporting engine (catch.go).

Strings from the Go code are modelled as lists of characters (Str).
Go maps whose iteration order matters are modelled as association lists in
the order the runtime yields their entries.  Results of runtime and
file-system introspection (runtime.Caller, os.Open, AST analysis) enter the
embedding as explicit parameters.
-/

namespace GoCatch

/-- Go string, as a list of characters. -/
abbrev Str := List Char

/-- Coerce a Lean string literal to the Str model. -/
def str (s : String) : Str := s.data

/-- The ANSI escape character ESC. -/
def escChar : Char := '\x1b'

-- ANSI color codes (the const block of catch.go).
def Reset : Str := str "\x1b[0m"
def Bold : Str := str "\x1b[1m"
def Red : Str := str "\x1b[31m"
def Green : Str := str "\x1b[32m"
def Yellow : Str := str "\x1b[33m"
def Blue : Str := str "\x1b[34m"
def Magenta : Str := str "\x1b[35m"
def Cyan : Str := str "\x1b[36m"
def White : Str := str "\x1b[37m"
def BrightRed : Str := str "\x1b[91m"
def Gray : Str := str "\x1b[90m"

/-- The escape slice used by stripANSI, in source order. -/
def ansiEscapes : List Str :=
  [Reset, Bold, Red, Green, Yellow, Blue, Magenta, Cyan, White, BrightRed, Gray]

/-- ErrorConfig holds configuration for error handling. -/
structure ErrorConfig where
  ShowStackTrace : Bool
  ShowSourceCode : Bool
  ShowSuggestions : Bool
  ExitOnError : Bool
  LogToFile : Str
  MaxStackDepth : Int
  ContextLines : Int
  UseColors : Bool
  EnableSmartAnalysis : Bool
  EnableStackAnalysis : Bool

/-- DefaultConfig provides the documented defaults. -/
def DefaultConfig : ErrorConfig :=
  { ShowStackTrace := true
  , ShowSourceCode := true
  , ShowSuggestions := true
  , ExitOnError := true
  , LogToFile := []
  , MaxStackDepth := 10
  , ContextLines := 2
  , UseColors := true
  , EnableSmartAnalysis := true
  , EnableStackAnalysis := true }

/-- ErrorCatcher is a type that can be used to catch and handle errors. -/
structure ErrorCatcher where
  Config : ErrorConfig

/-- getConfig returns the current configuration or default
(a zero MaxStackDepth marks the zero-valued configuration). -/
def ErrorCatcher.getConfig (e : ErrorCatcher) : ErrorConfig :=
  if e.Config.MaxStackDepth = 0 then DefaultConfig else e.Config

/-- The zero-valued ErrorConfig of the global var Catch = ErrorCatcher{}. -/
def zeroConfig : ErrorConfig :=
  { ShowStackTrace := false
  , ShowSourceCode := false
  , ShowSuggestions := false
  , ExitOnError := false
  , LogToFile := []
  , MaxStackDepth := 0
  , ContextLines := 0
  , UseColors := false
  , EnableSmartAnalysis := false
  , EnableStackAnalysis := false }

/-- The global Catch variable. -/
def Catch : ErrorCatcher := { Config := zeroConfig }

/-- strings.ToLower (character-wise lowering; the messages concerned are ASCII). -/
def lowerStr (s : Str) : Str := s.map Char.toLower

/-- Decidable list-prefix test (mirrors the prefix comparison done by
strings.Contains under the hood). -/
def isPre : Str → Str → Bool
  | [], _ => true
  | _ :: _, [] => false
  | a :: as, b :: bs => if a = b then isPre as bs else false

/-- strings.Contains: sub occurs as a contiguous substring of s. -/
def strContains : Str → Str → Bool
  | s, sub =>
    if isPre sub s then true
    else
      match s with
      | [] => false
      | _ :: cs => strContains cs sub

/-- generateSmartErrorCode creates context-aware error codes; ordered
substring matching on the lower-cased message (errStr inlined). -/
def generateSmartErrorCode (msg : Str) : Str :=
  if strContains (lowerStr msg) (str "no such file") then str "FS001"
  else if strContains (lowerStr msg) (str "permission denied") then str "FS002"
  else if strContains (lowerStr msg) (str "file exists") then str "FS003"
  else if strContains (lowerStr msg) (str "is a directory") then str "FS004"
  else if strContains (lowerStr msg) (str "not a directory") then str "FS005"
  else if strContains (lowerStr msg) (str "connection refused") then str "NET001"
  else if strContains (lowerStr msg) (str "timeout") then str "NET002"
  else if strContains (lowerStr msg) (str "host not found") then str "NET003"
  else if strContains (lowerStr msg) (str "network unreachable") then str "NET004"
  else if strContains (lowerStr msg) (str "parse") then str "DATA001"
  else if strContains (lowerStr msg) (str "invalid format") then str "DATA002"
  else if strContains (lowerStr msg) (str "decode") then str "DATA003"
  else if strContains (lowerStr msg) (str "encode") then str "DATA004"
  else if strContains (lowerStr msg) (str "index out of range") then str "LOGIC001"
  else if strContains (lowerStr msg) (str "nil pointer") then str "LOGIC002"
  else if strContains (lowerStr msg) (str "assertion failed") then str "LOGIC003"
  else str "GEN000"

/-- generateSmartSuggestion creates context-aware suggestions; ordered
substring matching on the lower-cased message (errStr inlined). -/
def generateSmartSuggestion (msg : Str) : Str :=
  if strContains (lowerStr msg) (str "no such file") then
    str "verify the file path exists, check for typos, or create the file first"
  else if strContains (lowerStr msg) (str "permission denied") then
    str "run with appropriate permissions, check file ownership, or modify file permissions"
  else if strContains (lowerStr msg) (str "connection refused") then
    str "ensure the target service is running, check firewall settings, or verify the address and port"
  else if strContains (lowerStr msg) (str "timeout") then
    str "increase timeout duration, check network connectivity, or optimize the operation"
  else if strContains (lowerStr msg) (str "parse") then
    str "validate input format, check for encoding issues, or review the data structure"
  else if strContains (lowerStr msg) (str "index out of range") then
    str "add bounds checking, validate array/slice length, or review loop conditions"
  else if strContains (lowerStr msg) (str "nil pointer") then
    str "add nil checks, initialize variables properly, or review pointer assignments"
  else
    str "check the error context, consult documentation, or add debug logging"

/-- The ordered pattern/code table realized by generateSmartErrorCode. -/
def codeTable : List (Str × Str) :=
  [ (str "no such file", str "FS001")
  , (str "permission denied", str "FS002")
  , (str "file exists", str "FS003")
  , (str "is a directory", str "FS004")
  , (str "not a directory", str "FS005")
  , (str "connection refused", str "NET001")
  , (str "timeout", str "NET002")
  , (str "host not found", str "NET003")
  , (str "network unreachable", str "NET004")
  , (str "parse", str "DATA001")
  , (str "invalid format", str "DATA002")
  , (str "decode", str "DATA003")
  , (str "encode", str "DATA004")
  , (str "index out of range", str "LOGIC001")
  , (str "nil pointer", str "LOGIC002")
  , (str "assertion failed", str "LOGIC003") ]

/-- The ordered pattern/suggestion table realized by generateSmartSuggestion. -/
def suggestionTable : List (Str × Str) :=
  [ (str "no such file",
     str "verify the file path exists, check for typos, or create the file first")
  , (str "permission denied",
     str "run with appropriate permissions, check file ownership, or modify file permissions")
  , (str "connection refused",
     str "ensure the target service is running, check firewall settings, or verify the address and port")
  , (str "timeout",
     str "increase timeout duration, check network connectivity, or optimize the operation")
  , (str "parse",
     str "validate input format, check for encoding issues, or review the data structure")
  , (str "index out of range",
     str "add bounds checking, validate array/slice length, or review loop conditions")
  , (str "nil pointer",
     str "add nil checks, initialize variables properly, or review pointer assignments") ]

/-- First match of an ordered substring-pattern table against the
lower-cased message, with a fallback result. -/
def firstMatch (table : List (Str × Str)) (dflt : Str) (msg : Str) : Str :=
  match table.find? (fun p => strContains (lowerStr msg) p.1) with
  | some p => p.2
  | none => dflt

/-- Decimal digit character (used when rendering integers, as fmt does). -/
def digitChar : Nat → Char
  | 0 => '0'
  | 1 => '1'
  | 2 => '2'
  | 3 => '3'
  | 4 => '4'
  | 5 => '5'
  | 6 => '6'
  | 7 => '7'
  | 8 => '8'
  | 9 => '9'
  | _ + 10 => '0'

/-- Decimal digits of a natural number (fuelled, fuel at least the number). -/
def natStrGo : Nat → Nat → Str
  | 0, _ => []
  | f + 1, n => if n < 10 then [digitChar n] else natStrGo f (n / 10) ++ [digitChar (n % 10)]

/-- Decimal rendering of a natural number. -/
def natStr (n : Nat) : Str := natStrGo (n + 1) n

/-- fmt-style decimal rendering of a Go int. -/
def intStr (i : Int) : Str := if i < 0 then '-' :: natStr i.natAbs else natStr i.toNat

/-- Runtime value carried in a context map (interface value), by shape:
a string, a numeric value (int, int64, float64 all share one branch in the
source), a ready-made map, an os.File handle, or any other value with its
reflected type name. -/
inductive CtxVal where
  | vstr : Str → CtxVal
  | vnum : Int → CtxVal
  | vmap : List (Str × CtxVal) → CtxVal
  | vfile : CtxVal
  | vother : Str → CtxVal

/-- A Go map of context annotations, reified as an association list in the
order the entries were inserted (iteration order of the runtime map is not
a function of this, see the render theorems). -/
abbrev CtxMap := List (Str × CtxVal)

/-- Lookup in a context map. -/
def ctxFind : CtxMap → Str → Option CtxVal
  | [], _ => none
  | (k', v) :: rest, k => if k' = k then some v else ctxFind rest k

/-- Go map assignment: replace the binding if the key is present, else add it. -/
def mapSet (m : CtxMap) (k : Str) (v : CtxVal) : CtxMap :=
  if (ctxFind m k).isSome then
    m.map (fun kv => if kv.1 = k then (k, v) else kv)
  else m ++ [(k, v)]

/-- inferContextKey tries to guess appropriate key names.  For the default
branch the source takes strings.ToLower(reflect.TypeOf(value).Name());
an unnamed map type reflects the empty name. -/
def inferContextKey : CtxVal → Str
  | .vstr v =>
      if strContains v (str "/") || strContains v (str ".") then str "path"
      else if v.length < 20 then str "name"
      else str "description"
  | .vfile => str "file"
  | .vnum _ => str "int"
  | .vmap _ => []
  | .vother t => lowerStr t

/-- The standalone-string arm of parseProvidedContext: an operation or a path. -/
def standaloneString (ctx : CtxMap) (v : Str) : CtxMap :=
  if strContains v (str "/") || strContains v (str ".") then mapSet ctx (str "path") (.vstr v)
  else mapSet ctx (str "operation") (.vstr v)

/-- The for-range loop of parseProvidedContext over the variadic items, with
the running index i.  A string at an even index with a successor consumes the
next item as its value and the loop merely continues, so the consumed value is
visited again at its own index. -/
def ppcGo (ctx : CtxMap) (i : Nat) : List CtxVal → CtxMap
  | [] => ctx
  | item :: rest =>
    match item with
    | .vstr v =>
      match rest with
      | next :: _ =>
        if i % 2 = 0 then ppcGo (mapSet ctx v next) (i + 1) rest
        else ppcGo (standaloneString ctx v) (i + 1) rest
      | [] => ppcGo (standaloneString ctx v) (i + 1) rest
    | .vnum n => ppcGo (mapSet ctx (str "value_" ++ natStr i) (.vnum n)) (i + 1) rest
    | other => ppcGo (mapSet ctx (inferContextKey other) other) (i + 1) rest

/-- parseProvidedContext handles various context input formats: a single
ready-made map is copied, anything else goes through the pairwise loop. -/
def parseProvidedContext (ctx : CtxMap) (context : List CtxVal) : CtxMap :=
  match context with
  | [] => ctx
  | [CtxVal.vmap m] => m.foldl (fun c kv => mapSet c kv.1 kv.2) ctx
  | _ => ppcGo ctx 0 context

/-- The merge loops of buildSmartContext: add an inferred entry only when the
key is not already present. -/
def mergeAbsent (ctx src : CtxMap) : CtxMap :=
  src.foldl (fun m kv => if (ctxFind m kv.1).isSome then m else mapSet m kv.1 kv.2) ctx

/-- buildSmartContext auto-detects context from various sources.  The results
of detectContextFromSource and detectContextFromStack (AST and runtime
introspection) enter as the parameters sourceCtx and stackCtx; the
configuration consulted through the global Catch enters as cfg. -/
def buildSmartContext (cfg : ErrorConfig) (sourceCtx stackCtx : CtxMap)
    (context : List CtxVal) : CtxMap :=
  let ctx := parseProvidedContext [] context
  let ctx1 := if cfg.EnableSmartAnalysis then mergeAbsent ctx sourceCtx else ctx
  if cfg.EnableStackAnalysis then mergeAbsent ctx1 stackCtx else ctx1

/-- A line of the surrounding source window. -/
structure SourceLine where
  Number : Int
  Content : Str
  IsError : Bool

/-- The scanner loop of loadSourceContext: cur counts the lines already read,
lines numbered in the window are collected, and the loop breaks once past its
end. -/
def loadGo (s e c : Int) : List Str → Nat → List SourceLine
  | [], _ => []
  | l :: rest, cur =>
    let n : Int := (cur : Int) + 1
    let acc : List SourceLine :=
      if s ≤ n ∧ n ≤ e then [{ Number := n, Content := l, IsError := decide (n = c) }] else []
    if e < n then acc else acc ++ loadGo s e c rest (cur + 1)

/-- loadSourceContext reads source code around the error line.  The file the
OS yields for the path enters as the source parameter (none when os.Open
fails, in which case the source returns nil). -/
def loadSourceContext (source : Option (List Str)) (errorLine contextLines : Int) :
    List SourceLine :=
  match source with
  | none => []
  | some ls =>
    let startLine := errorLine - contextLines
    let endLine := errorLine + contextLines
    let s := if startLine < 1 then 1 else startLine
    loadGo s endLine errorLine ls 0

/-- A frame as resolved by runtime.Caller / runtime.FuncForPC: the function
is none when FuncForPC returns nil. -/
structure RawFrame where
  fn : Option Str
  file : Str
  line : Int

/-- A captured stack frame. -/
structure StackFrame where
  File : Str
  Line : Int
  Function : Str

/-- Strip everything up to and including the last slash (the package-path
cleanup applied to function names). -/
def afterLastSlash (s : Str) : Str :=
  s.foldl (fun acc c => if c = '/' then [] else acc ++ [c]) []

/-- Function-name cleanup applied per frame; an unresolvable function stays
the empty string. -/
def frameFuncName : Option Str → Str
  | none => []
  | some n => afterLastSlash n

/-- The loop of buildStackTrace: r iterations remain, i is the current
runtime.Caller index; an unresolvable caller stops the walk. -/
def stGo (chain : List RawFrame) : Nat → Nat → List StackFrame
  | 0, _ => []
  | r + 1, i =>
    match chain.get? i with
    | none => []
    | some f => { File := f.file, Line := f.line, Function := frameFuncName f.fn } :: stGo chain r (i + 1)

/-- buildStackTrace creates a stack trace; the caller chain visible to
runtime.Caller enters as the chain parameter.  The source loop runs i from
skip+1 while i < skip+MaxStackDepth, i.e. MaxStackDepth-1 iterations. -/
def ErrorCatcher.buildStackTrace (e : ErrorCatcher) (chain : List RawFrame) (skip : Nat) :
    List StackFrame :=
  stGo chain (e.getConfig.MaxStackDepth - 1).toNat (skip + 1)

/-- fmt width padding: left-pad with spaces to the requested width. -/
def padLeft (w : Nat) (s : Str) : Str := List.replicate (w - s.length) ' ' ++ s

/-- filepath.Base, modelled as the suffix after the last slash (the paths
reported by runtime.Caller carry no trailing slash). -/
def baseName (s : Str) : Str := afterLastSlash s

/-- fmt %v display of a context value.  Strings and numbers are displayed
exactly; the display of maps, file handles and other values is modelled by a
fixed placeholder (no claim depends on those shapes). -/
def displayVal : CtxVal → Str
  | .vstr s => s
  | .vnum n => intStr n
  | .vmap _ => str "map[]"
  | .vfile => str "&\x7b\x7d"
  | .vother _ => str "\x7b\x7d"

/-- Enhanced error information (the FailureRecord). -/
structure ErrorInfo where
  Error : Str
  File : Str
  Line : Int
  Column : Int
  Function : Str
  Context : CtxMap
  Stack : List StackFrame
  SourceLines : List SourceLine
  ErrorCode : Str
  Suggestion : Str

/-- One segment of the rendered report: plain text, or an injected ANSI
styling token.  The report string is the flattening of its segments. -/
inductive Piece where
  | txt : Str → Piece
  | tok : Str → Piece

/-- The characters a segment contributes to the report. -/
def Piece.content : Piece → Str
  | .txt s => s
  | .tok s => s

/-- The report text: segment contents, concatenated. -/
def flatten (ps : List Piece) : Str := (ps.map Piece.content).flatten

/-- Blank out every styling token, keeping the plain text segments. -/
def stripToks (ps : List Piece) : List Piece :=
  ps.map (fun p => match p with | .tok _ => .txt [] | q => q)

/-- The Rust-style error header of handleError. -/
def headerPieces (cfg : ErrorConfig) (info : ErrorInfo) : List Piece :=
  if cfg.UseColors then
    [.tok BrightRed, .txt (str "error["), .tok Bold, .txt info.ErrorCode, .tok Reset,
     .tok BrightRed, .txt (str "]: "), .tok Bold, .txt info.Error, .tok Reset, .txt (str "\n")]
  else
    [.txt (str "error[" ++ info.ErrorCode ++ str "]: " ++ info.Error ++ str "\n")]

/-- The file location line with arrow. -/
def locationPieces (cfg : ErrorConfig) (info : ErrorInfo) : List Piece :=
  if cfg.UseColors then
    [.txt (str " "), .tok Blue, .tok Bold, .txt (str "-->"), .tok Reset, .txt (str " "),
     .txt (baseName info.File), .txt (str ":"), .txt (intStr info.Line), .txt (str "\n")]
  else
    [.txt (str " --> " ++ baseName info.File ++ str ":" ++ intStr info.Line ++ str "\n")]

/-- One line of the source-code context block (with the caret marker line
beneath the flagged line). -/
def sourceLinePieces (cfg : ErrorConfig) (padding : Nat) (sl : SourceLine) : List Piece :=
  let lineNumStr := padLeft padding (intStr sl.Number)
  if sl.IsError then
    (if cfg.UseColors then
      [.tok Red, .tok Bold, .txt lineNumStr, .tok Reset, .txt (str " |"), .tok Reset,
       .txt (str " "), .txt sl.Content, .txt (str "\n")]
     else
      [.txt (lineNumStr ++ str " | " ++ sl.Content ++ str "\n")])
    ++
    (let spaces := List.replicate padding ' '
     if cfg.UseColors then
      [.txt spaces, .txt (str " |"), .tok Reset, .txt (str " "), .tok Red, .tok Bold,
       .tok Reset, .txt (str "^"), .txt (str "\n")]
     else
      [.txt (spaces ++ str " | ^" ++ str "\n")])
  else
    if cfg.UseColors then
      [.tok Blue, .txt lineNumStr, .tok Reset, .txt (str " |"), .tok Reset, .txt (str " "),
       .tok Gray, .txt sl.Content, .tok Reset, .txt (str "\n")]
    else
      [.txt (lineNumStr ++ str " | " ++ sl.Content ++ str "\n")]

/-- The source-code context block. -/
def sourceBlockPieces (cfg : ErrorConfig) (info : ErrorInfo) : List Piece :=
  if cfg.ShowSourceCode ∧ 0 < info.SourceLines.length then
    let maxLineNum : Int :=
      match info.SourceLines.getLast? with
      | some l => l.Number
      | none => 0
    let padding := (intStr maxLineNum).length
    [Piece.txt (str "  |\n")]
      ++ (info.SourceLines.map (sourceLinePieces cfg padding)).flatten
      ++ [Piece.txt (str "  |\n")]
  else []

/-- One context key/value line. -/
def contextItemPieces (cfg : ErrorConfig) (kv : Str × CtxVal) : List Piece :=
  if cfg.UseColors then
    [.txt (str "    "), .tok Cyan, .txt kv.1, .tok Reset, .txt (str ": "),
     .txt (displayVal kv.2), .txt (str "\n")]
  else
    [.txt (str "    " ++ kv.1 ++ str ": " ++ displayVal kv.2 ++ str "\n")]

/-- The context block; the entries appear in the order the runtime map range
yields them (reified by the order of info.Context). -/
def contextBlockPieces (cfg : ErrorConfig) (info : ErrorInfo) : List Piece :=
  if 0 < info.Context.length then
    (if cfg.UseColors then
      [.txt (str "  "), .tok Blue, .tok Bold, .txt (str "="), .tok Reset, .txt (str " "),
       .tok Yellow, .tok Bold, .txt (str "context:"), .tok Reset, .txt (str "\n")]
     else
      [.txt (str "  = context:\n")])
    ++ (info.Context.map (contextItemPieces cfg)).flatten
    ++ [Piece.txt (str "\n")]
  else []

/-- The help line. -/
def suggestionPieces (cfg : ErrorConfig) (info : ErrorInfo) : List Piece :=
  if cfg.ShowSuggestions ∧ info.Suggestion ≠ [] then
    (if cfg.UseColors then
      [.txt (str "  "), .tok Blue, .tok Bold, .txt (str "="), .tok Reset, .txt (str " "),
       .tok Green, .tok Bold, .txt (str "help:"), .tok Reset, .txt (str " "),
       .txt info.Suggestion, .txt (str "\n")]
     else
      [.txt (str "  = help: " ++ info.Suggestion ++ str "\n")])
    ++ [Piece.txt (str "\n")]
  else []

/-- One numbered backtrace frame. -/
def stackFramePieces (cfg : ErrorConfig) (iframe : Nat × StackFrame) : List Piece :=
  if cfg.UseColors then
    [.txt (str "   "), .tok Gray, .txt (padLeft 2 (natStr iframe.1)), .txt (str ":"),
     .tok Reset, .txt (str " "), .tok Bold, .txt iframe.2.Function, .tok Reset,
     .txt (str "\n          at "), .tok Gray, .txt (baseName iframe.2.File), .txt (str ":"),
     .txt (intStr iframe.2.Line), .tok Reset, .txt (str "\n")]
  else
    [.txt (str "   " ++ padLeft 2 (natStr iframe.1) ++ str ": " ++ iframe.2.Function
      ++ str "\n          at " ++ baseName iframe.2.File ++ str ":" ++ intStr iframe.2.Line
      ++ str "\n")]

/-- The stack backtrace block. -/
def stackBlockPieces (cfg : ErrorConfig) (info : ErrorInfo) : List Piece :=
  if cfg.ShowStackTrace ∧ 0 < info.Stack.length then
    (if cfg.UseColors then
      [.txt (str "  "), .tok Blue, .tok Bold, .txt (str "="), .tok Reset, .txt (str " "),
       .tok Yellow, .tok Bold, .txt (str "stack backtrace:"), .tok Reset, .txt (str "\n")]
     else
      [.txt (str "  = stack backtrace:\n")])
    ++ (info.Stack.enum.map (stackFramePieces cfg)).flatten
    ++ [Piece.txt (str "\n")]
  else []

/-- The full report of handleError, as segments in output order. -/
def renderPieces (cfg : ErrorConfig) (info : ErrorInfo) : List Piece :=
  headerPieces cfg info ++ locationPieces cfg info ++ sourceBlockPieces cfg info
    ++ contextBlockPieces cfg info ++ suggestionPieces cfg info ++ stackBlockPieces cfg info

/-- The scanning loop of strings.ReplaceAll (non-overlapping, left to right,
over the original text); the fuel starts at the text length and bounds the
recursion. -/
def raGo (pat rep : Str) : Nat → Str → Str
  | _, [] => []
  | 0, s => s
  | fuel + 1, c :: cs =>
    if isPre pat (c :: cs) then rep ++ raGo pat rep fuel ((c :: cs).drop pat.length)
    else c :: raGo pat rep fuel cs

/-- strings.ReplaceAll (the source only applies it to nonempty patterns). -/
def replaceAll (s pat rep : Str) : Str := if pat = [] then s else raGo pat rep s.length s

/-- stripANSI removes the ANSI color codes from text, one ReplaceAll per code. -/
def stripANSI (text : Str) : Str :=
  ansiEscapes.foldl (fun result escape => replaceAll result escape []) text

/-- No character of the string is the ANSI escape character. -/
def noEsc (s : Str) : Bool := s.all (fun c => c != escChar)

/-- Every text field of the record is free of the ANSI escape character. -/
def cleanInfo (info : ErrorInfo) : Bool :=
  noEsc info.ErrorCode && noEsc info.Error && noEsc info.File && noEsc info.Suggestion
    && info.SourceLines.all (fun sl => noEsc sl.Content)
    && info.Context.all (fun kv => noEsc kv.1 && noEsc (displayVal kv.2))
    && info.Stack.all (fun f => noEsc f.File && noEsc f.Function)

/-- A well-formed segment: plain text without the escape character, or one of
the eleven ANSI tokens. -/
def PieceOK : Piece → Prop
  | .txt s => ∀ ch ∈ s, ch ≠ escChar
  | .tok t => t ∈ ansiEscapes

/-- All segments well-formed. -/
def piecesWF (ps : List Piece) : Prop := ∀ p ∈ ps, PieceOK p

instance decPieceOK : (p : Piece) → Decidable (PieceOK p)
  | .txt s => inferInstanceAs (Decidable (∀ ch ∈ s, ch ≠ escChar))
  | .tok t => inferInstanceAs (Decidable (t ∈ ansiEscapes))

/-- Blank out the token segments whose token equals pat. -/
def zeroOne (pat : Str) : Piece → Piece
  | .tok t => if t = pat then .txt [] else .tok t
  | p => p

/-- Blank out the token segments whose token is in pats. -/
def zeroIn (pats : List Str) : Piece → Piece
  | .tok t => if t ∈ pats then .txt [] else .tok t
  | p => p

/-- The observable effects of handleError: the text written to stderr, the
text appended to the log file (none when no log file is configured), and
whether os.Exit is reached. -/
structure Effects where
  console : Str
  logText : Option Str
  exited : Bool

/-- handleError processes and outputs the error in Rust style. -/
def ErrorCatcher.handleError (e : ErrorCatcher) (info : ErrorInfo) : Effects :=
  let config := e.getConfig
  let message := flatten (renderPieces config info)
  { console := message
  , logText := if config.LogToFile ≠ [] then some (stripANSI message) else none
  , exited := config.ExitOnError }

/-- A minimal configuration for concrete render evaluations: no source block,
no suggestions, no stack block, no colors, no log file, no exit; the nonzero
MaxStackDepth keeps getConfig from substituting the defaults. -/
def cfgMin : ErrorConfig :=
  { ShowStackTrace := false
  , ShowSourceCode := false
  , ShowSuggestions := false
  , ExitOnError := false
  , LogToFile := []
  , MaxStackDepth := 10
  , ContextLines := 2
  , UseColors := false
  , EnableSmartAnalysis := false
  , EnableStackAnalysis := false }

/-- A small concrete failure record used for concrete render evaluations. -/
def infoW : ErrorInfo :=
  { Error := str "boom"
  , File := str "main.go"
  , Line := 3
  , Column := 0
  , Function := str "main.main"
  , Context := []
  , Stack := []
  , SourceLines := []
  , ErrorCode := str "GEN000"
  , Suggestion := str "s" }

/-- The ambient results of runtime and file-system introspection at a call
site: caller file and line, the function resolved by runtime.FuncForPC, the
content of the caller's source file (none when it cannot be opened), and the
caller chain visible to runtime.Caller. -/
structure CallEnv where
  file : Str
  line : Int
  fn : Option Str
  source : Option (List Str)
  chain : List RawFrame

/-- buildErrorInfo creates detailed error information with source code
context; skip selects the caller frame. -/
def ErrorCatcher.buildErrorInfo (e : ErrorCatcher) (env : CallEnv) (msg : Str)
    (skip : Nat) : ErrorInfo :=
  let config := e.getConfig
  { Error := msg
  , File := env.file
  , Line := env.line
  , Column := 0
  , Function := frameFuncName env.fn
  , Context := []
  , Stack := if config.ShowStackTrace then e.buildStackTrace env.chain (skip + 1) else []
  , SourceLines :=
      if config.ShowSourceCode then loadSourceContext env.source env.line config.ContextLines
      else []
  , ErrorCode := generateSmartErrorCode msg
  , Suggestion := generateSmartSuggestion msg }

/-- buildSmartErrorInfo creates comprehensive error info with auto-detection;
the global Catch's configuration applies, and the inferred contexts enter as
parameters. -/
def buildSmartErrorInfo (env : CallEnv) (sourceCtx stackCtx : CtxMap) (msg : Str)
    (context : List CtxVal) : ErrorInfo :=
  let config := Catch.getConfig
  { Error := msg
  , File := env.file
  , Line := env.line
  , Column := 0
  , Function := frameFuncName env.fn
  , Context := buildSmartContext config sourceCtx stackCtx context
  , Stack := if config.ShowStackTrace then Catch.buildStackTrace env.chain 1 else []
  , SourceLines :=
      if config.ShowSourceCode then loadSourceContext env.source env.line config.ContextLines
      else []
  , ErrorCode := generateSmartErrorCode msg
  , Suggestion := generateSmartSuggestion msg }

/-- ContextualCatcher allows chaining context information. -/
structure ContextualCatcher where
  catcher : ErrorCatcher
  context : CtxMap

/-- WithContext starts a chain with one contextual key/value. -/
def ErrorCatcher.WithContext (e : ErrorCatcher) (key : Str) (value : CtxVal) :
    ContextualCatcher :=
  { catcher := e, context := [(key, value)] }

/-- WithContext adds more context to the chain. -/
def ContextualCatcher.WithContext (c : ContextualCatcher) (key : Str) (value : CtxVal) :
    ContextualCatcher :=
  { c with context := mapSet c.context key value }

/-- Set handles error with accumulated context: a nil error produces no
effects (no console write, no log write, no exit) and is returned unchanged. -/
def ContextualCatcher.Set (c : ContextualCatcher) (env : CallEnv) (err : Option Str) :
    Option Effects × Option Str :=
  match err with
  | some msg =>
    let info := { c.catcher.buildErrorInfo env msg 1 with Context := c.context }
    (some (ErrorCatcher.handleError c.catcher info), some msg)
  | none => (none, none)

/-- Set assigns an error value and handles it if not nil; the error is
returned unchanged. -/
def ErrorCatcher.Set (e : ErrorCatcher) (env : CallEnv) (err : Option Str) :
    Option Effects × Option Str :=
  match err with
  | some msg => (some (ErrorCatcher.handleError e (e.buildErrorInfo env msg 1)), some msg)
  | none => (none, none)

/-- Err is the main auto-detecting error handler: nil returns nil with no
effects; otherwise the smart info is built, reported through the global
Catch, and the error is returned unchanged. -/
def Err (env : CallEnv) (sourceCtx stackCtx : CtxMap) (err : Option Str)
    (context : List CtxVal) : Option Effects × Option Str :=
  match err with
  | none => (none, none)
  | some msg =>
    (some (ErrorCatcher.handleError Catch
        (buildSmartErrorInfo env sourceCtx stackCtx msg context)),
     some msg)

-- ### THEOREMS

theorem firstMatch_cons_pos (pat code : Str) (t : List (Str × Str)) (d msg : Str)
    (h : strContains (lowerStr msg) pat = true) :
    firstMatch ((pat, code) :: t) d msg = code := by
  simp only [firstMatch, List.find?, h]

theorem firstMatch_cons_neg (pat code : Str) (t : List (Str × Str)) (d msg : Str)
    (h : strContains (lowerStr msg) pat = false) :
    firstMatch ((pat, code) :: t) d msg = firstMatch t d msg := by
  simp only [firstMatch, List.find?, h]

theorem classifyCode_eq_table (msg : Str) :
    generateSmartErrorCode msg = firstMatch codeTable (str "GEN000") msg := by
  unfold generateSmartErrorCode codeTable
  cases h1 : strContains (lowerStr msg) (str "no such file") with
  | true => rw [if_pos rfl, firstMatch_cons_pos _ _ _ _ _ h1]
  | false =>
  rw [if_neg Bool.false_ne_true, firstMatch_cons_neg _ _ _ _ _ h1]
  cases h2 : strContains (lowerStr msg) (str "permission denied") with
  | true => rw [if_pos rfl, firstMatch_cons_pos _ _ _ _ _ h2]
  | false =>
  rw [if_neg Bool.false_ne_true, firstMatch_cons_neg _ _ _ _ _ h2]
  cases h3 : strContains (lowerStr msg) (str "file exists") with
  | true => rw [if_pos rfl, firstMatch_cons_pos _ _ _ _ _ h3]
  | false =>
  rw [if_neg Bool.false_ne_true, firstMatch_cons_neg _ _ _ _ _ h3]
  cases h4 : strContains (lowerStr msg) (str "is a directory") with
  | true => rw [if_pos rfl, firstMatch_cons_pos _ _ _ _ _ h4]
  | false =>
  rw [if_neg Bool.false_ne_true, firstMatch_cons_neg _ _ _ _ _ h4]
  cases h5 : strContains (lowerStr msg) (str "not a directory") with
  | true => rw [if_pos rfl, firstMatch_cons_pos _ _ _ _ _ h5]
  | false =>
  rw [if_neg Bool.false_ne_true, firstMatch_cons_neg _ _ _ _ _ h5]
  cases h6 : strContains (lowerStr msg) (str "connection refused") with
  | true => rw [if_pos rfl, firstMatch_cons_pos _ _ _ _ _ h6]
  | false =>
  rw [if_neg Bool.false_ne_true, firstMatch_cons_neg _ _ _ _ _ h6]
  cases h7 : strContains (lowerStr msg) (str "timeout") with
  | true => rw [if_pos rfl, firstMatch_cons_pos _ _ _ _ _ h7]
  | false =>
  rw [if_neg Bool.false_ne_true, firstMatch_cons_neg _ _ _ _ _ h7]
  cases h8 : strContains (lowerStr msg) (str "host not found") with
  | true => rw [if_pos rfl, firstMatch_cons_pos _ _ _ _ _ h8]
  | false =>
  rw [if_neg Bool.false_ne_true, firstMatch_cons_neg _ _ _ _ _ h8]
  cases h9 : strContains (lowerStr msg) (str "network unreachable") with
  | true => rw [if_pos rfl, firstMatch_cons_pos _ _ _ _ _ h9]
  | false =>
  rw [if_neg Bool.false_ne_true, firstMatch_cons_neg _ _ _ _ _ h9]
  cases h10 : strContains (lowerStr msg) (str "parse") with
  | true => rw [if_pos rfl, firstMatch_cons_pos _ _ _ _ _ h10]
  | false =>
  rw [if_neg Bool.false_ne_true, firstMatch_cons_neg _ _ _ _ _ h10]
  cases h11 : strContains (lowerStr msg) (str "invalid format") with
  | true => rw [if_pos rfl, firstMatch_cons_pos _ _ _ _ _ h11]
  | false =>
  rw [if_neg Bool.false_ne_true, firstMatch_cons_neg _ _ _ _ _ h11]
  cases h12 : strContains (lowerStr msg) (str "decode") with
  | true => rw [if_pos rfl, firstMatch_cons_pos _ _ _ _ _ h12]
  | false =>
  rw [if_neg Bool.false_ne_true, firstMatch_cons_neg _ _ _ _ _ h12]
  cases h13 : strContains (lowerStr msg) (str "encode") with
  | true => rw [if_pos rfl, firstMatch_cons_pos _ _ _ _ _ h13]
  | false =>
  rw [if_neg Bool.false_ne_true, firstMatch_cons_neg _ _ _ _ _ h13]
  cases h14 : strContains (lowerStr msg) (str "index out of range") with
  | true => rw [if_pos rfl, firstMatch_cons_pos _ _ _ _ _ h14]
  | false =>
  rw [if_neg Bool.false_ne_true, firstMatch_cons_neg _ _ _ _ _ h14]
  cases h15 : strContains (lowerStr msg) (str "nil pointer") with
  | true => rw [if_pos rfl, firstMatch_cons_pos _ _ _ _ _ h15]
  | false =>
  rw [if_neg Bool.false_ne_true, firstMatch_cons_neg _ _ _ _ _ h15]
  cases h16 : strContains (lowerStr msg) (str "assertion failed") with
  | true => rw [if_pos rfl, firstMatch_cons_pos _ _ _ _ _ h16]
  | false =>
  rw [if_neg Bool.false_ne_true, firstMatch_cons_neg _ _ _ _ _ h16]
  rfl

theorem classifySugg_eq_table (msg : Str) :
    generateSmartSuggestion msg =
      firstMatch suggestionTable
        (str "check the error context, consult documentation, or add debug logging") msg := by
  unfold generateSmartSuggestion suggestionTable
  cases h1 : strContains (lowerStr msg) (str "no such file") with
  | true => rw [if_pos rfl, firstMatch_cons_pos _ _ _ _ _ h1]
  | false =>
  rw [if_neg Bool.false_ne_true, firstMatch_cons_neg _ _ _ _ _ h1]
  cases h2 : strContains (lowerStr msg) (str "permission denied") with
  | true => rw [if_pos rfl, firstMatch_cons_pos _ _ _ _ _ h2]
  | false =>
  rw [if_neg Bool.false_ne_true, firstMatch_cons_neg _ _ _ _ _ h2]
  cases h3 : strContains (lowerStr msg) (str "connection refused") with
  | true => rw [if_pos rfl, firstMatch_cons_pos _ _ _ _ _ h3]
  | false =>
  rw [if_neg Bool.false_ne_true, firstMatch_cons_neg _ _ _ _ _ h3]
  cases h4 : strContains (lowerStr msg) (str "timeout") with
  | true => rw [if_pos rfl, firstMatch_cons_pos _ _ _ _ _ h4]
  | false =>
  rw [if_neg Bool.false_ne_true, firstMatch_cons_neg _ _ _ _ _ h4]
  cases h5 : strContains (lowerStr msg) (str "parse") with
  | true => rw [if_pos rfl, firstMatch_cons_pos _ _ _ _ _ h5]
  | false =>
  rw [if_neg Bool.false_ne_true, firstMatch_cons_neg _ _ _ _ _ h5]
  cases h6 : strContains (lowerStr msg) (str "index out of range") with
  | true => rw [if_pos rfl, firstMatch_cons_pos _ _ _ _ _ h6]
  | false =>
  rw [if_neg Bool.false_ne_true, firstMatch_cons_neg _ _ _ _ _ h6]
  cases h7 : strContains (lowerStr msg) (str "nil pointer") with
  | true => rw [if_pos rfl, firstMatch_cons_pos _ _ _ _ _ h7]
  | false =>
  rw [if_neg Bool.false_ne_true, firstMatch_cons_neg _ _ _ _ _ h7]
  rfl

/-- Claim C1 (amended): the classifier is a total, deterministic function of the
lower-cased message that returns the first match of the fixed pattern table in
the priority order filesystem, network, data, logic, and GEN000 when no pattern
matches; for every message containing both "connection refused" and "timeout"
AND matching no filesystem pattern, it returns NET001 (the connection-refused
pattern is checked before the timeout pattern). -/
theorem classify_priority_order :
    (∀ msg : Str, generateSmartErrorCode msg = firstMatch codeTable (str "GEN000") msg)
    ∧ (∀ msg : Str,
        strContains (lowerStr msg) (str "no such file") = false →
        strContains (lowerStr msg) (str "permission denied") = false →
        strContains (lowerStr msg) (str "file exists") = false →
        strContains (lowerStr msg) (str "is a directory") = false →
        strContains (lowerStr msg) (str "not a directory") = false →
        strContains (lowerStr msg) (str "connection refused") = true →
        strContains (lowerStr msg) (str "timeout") = true →
        generateSmartErrorCode msg = str "NET001") := by
  refine ⟨classifyCode_eq_table, ?_⟩
  intro msg h1 h2 h3 h4 h5 h6 h7
  simp only [generateSmartErrorCode, h1, h2, h3, h4, h5, h6]
  simp

/-- Claim C1 counterexample: a message containing both "connection refused"
and "timeout" but also a filesystem pattern is classified FS001, not NET001,
so the claim as stated (for every message containing both) fails. -/
theorem classify_priority_counterexample :
    strContains (lowerStr (str "no such file: connection refused timeout"))
      (str "connection refused") = true
    ∧ strContains (lowerStr (str "no such file: connection refused timeout"))
      (str "timeout") = true
    ∧ generateSmartErrorCode (str "no such file: connection refused timeout") ≠
      str "NET001"
    ∧ generateSmartErrorCode (str "no such file: connection refused timeout") =
      str "FS001" := by
  decide

/-- Witness for classify_priority_order at a concrete message. -/
theorem classify_priority_witness :
    generateSmartErrorCode (str "connection refused timeout") = str "NET001" :=
  classify_priority_order.2 (str "connection refused timeout")
    (by decide) (by decide) (by decide) (by decide) (by decide) (by decide) (by decide)

/-- Claim C6 (amended): the code and the suggestion are each the first match of
a fixed ordered pattern table, but they come from two different tables: the
suggestion table holds only seven of the sixteen code patterns, so for some
messages the code comes from a matched pattern while the suggestion comes from
a different pattern or from the generic fallback. -/
theorem classifier_two_tables :
    (∀ msg : Str, generateSmartErrorCode msg = firstMatch codeTable (str "GEN000") msg)
    ∧ (∀ msg : Str,
        generateSmartSuggestion msg =
          firstMatch suggestionTable
            (str "check the error context, consult documentation, or add debug logging") msg)
    ∧ suggestionTable.length < codeTable.length :=
  ⟨classifyCode_eq_table, classifySugg_eq_table, by decide⟩

/-- Claim C6 counterexample: "file exists" gets the specific code FS003 from
the code table, yet its suggestion is the generic fallback, because the
suggestion table has no entry for that pattern. -/
theorem classifier_code_sugg_counterexample :
    generateSmartErrorCode (str "file exists") = str "FS003"
    ∧ generateSmartSuggestion (str "file exists") =
      str "check the error context, consult documentation, or add debug logging" := by
  decide

theorem ctxFind_append (a b : CtxMap) (k : Str) :
    ctxFind (a ++ b) k =
      match ctxFind a k with
      | some v => some v
      | none => ctxFind b k := by
  induction a with
  | nil => simp [ctxFind]
  | cons kv rest ih =>
    obtain ⟨k', v⟩ := kv
    by_cases hk : k' = k
    · simp [ctxFind, hk]
    · simp [ctxFind, hk, ih]

theorem mapSet_absent (m : CtxMap) (k : Str) (v : CtxVal) (h : ctxFind m k = none) :
    mapSet m k v = m ++ [(k, v)] := by
  simp [mapSet, h]

theorem mergeAbsent_find (src : CtxMap) : ∀ (e : CtxMap) (k : Str),
    ctxFind (mergeAbsent e src) k =
      match ctxFind e k with
      | some v => some v
      | none => ctxFind src k := by
  induction src with
  | nil =>
    intro e k
    cases h : ctxFind e k <;> simp [mergeAbsent, ctxFind, h]
  | cons kv rest ih =>
    intro e k
    obtain ⟨k', v'⟩ := kv
    have hstep : mergeAbsent e ((k', v') :: rest) =
        mergeAbsent (if (ctxFind e k').isSome then e else mapSet e k' v') rest := by
      simp [mergeAbsent]
    rw [hstep]
    cases hk' : ctxFind e k' with
    | some w =>
      rw [if_pos (by simp [hk']), ih]
      by_cases hkk : k' = k
      · subst hkk
        simp [ctxFind, hk']
      · simp [ctxFind, hkk]
    | none =>
      rw [if_neg (by simp [hk']), mapSet_absent e k' v' hk', ih, ctxFind_append]
      cases hek : ctxFind e k with
      | some v => simp [hek]
      | none =>
        by_cases hkk : k' = k
        · subst hkk
          simp [ctxFind]
        · simp [ctxFind, hkk]

/-- Claim C2: the merged context produced by buildSmartContext maps every key
bound in the normalized explicit context to its explicit value; a
source-inferred binding is consulted only when the key is absent from the
explicit context (and source analysis is enabled), and a stack-inferred
binding only when the key is absent after that. -/
theorem buildSmartContext_explicit_wins (cfg : ErrorConfig) (sourceCtx stackCtx : CtxMap)
    (context : List CtxVal) (k : Str) :
    ctxFind (buildSmartContext cfg sourceCtx stackCtx context) k =
      match ctxFind (parseProvidedContext [] context) k with
      | some v => some v
      | none =>
        match (if cfg.EnableSmartAnalysis then ctxFind sourceCtx k else none) with
        | some v => some v
        | none => if cfg.EnableStackAnalysis then ctxFind stackCtx k else none := by
  cases hs : cfg.EnableSmartAnalysis <;> cases ht : cfg.EnableStackAnalysis <;>
    simp only [buildSmartContext, hs, ht, Bool.false_eq_true, if_true, if_false,
      mergeAbsent_find] <;>
    cases ctxFind (parseProvidedContext [] context) k <;>
    cases ctxFind sourceCtx k <;>
    cases ctxFind stackCtx k <;> rfl

/-- Claim C8: the two-item sequence ("file", "data.txt") yields the pair
file -> "data.txt", but the consumed value item is processed again as a
standalone string and also yields path -> "data.txt"; the for-range loop
cannot skip the consumed value, contradicting the documented pairwise
interpretation. -/
theorem parseProvidedContext_value_reprocessed :
    parseProvidedContext [] [CtxVal.vstr (str "file"), CtxVal.vstr (str "data.txt")] =
      [(str "file", CtxVal.vstr (str "data.txt")),
       (str "path", CtxVal.vstr (str "data.txt"))] := by
  rfl

theorem enumFrom_filter_past (s e : Int) : ∀ (ls : List Str) (k : Nat), e < (k : Int) + 1 →
    (List.enumFrom k ls).filter
      (fun p => decide (s ≤ (p.1 : Int) + 1 ∧ (p.1 : Int) + 1 ≤ e)) = [] := by
  intro ls
  induction ls with
  | nil => intro k _; simp [List.enumFrom]
  | cons l rest ih =>
    intro k hk
    have hcond : ¬(s ≤ (k : Int) + 1 ∧ (k : Int) + 1 ≤ e) := by omega
    simp only [List.enumFrom, List.filter_cons, decide_eq_false hcond]
    exact ih (k + 1) (by push_cast; omega)

theorem loadGo_enumFrom (s e c : Int) : ∀ (ls : List Str) (k : Nat),
    loadGo s e c ls k =
      ((List.enumFrom k ls).filter
        (fun p => decide (s ≤ (p.1 : Int) + 1 ∧ (p.1 : Int) + 1 ≤ e))).map
        (fun p =>
          { Number := (p.1 : Int) + 1, Content := p.2
          , IsError := decide ((p.1 : Int) + 1 = c) }) := by
  intro ls
  induction ls with
  | nil => intro k; simp [loadGo, List.enumFrom]
  | cons l rest ih =>
    intro k
    by_cases hbreak : e < (k : Int) + 1
    · have hcond : ¬(s ≤ (k : Int) + 1 ∧ (k : Int) + 1 ≤ e) := by omega
      simp only [loadGo, if_pos hbreak, if_neg hcond, List.enumFrom, List.filter_cons,
        decide_eq_false hcond, enumFrom_filter_past s e rest (k + 1) (by push_cast; omega)]
      simp
    · by_cases hcond : s ≤ (k : Int) + 1 ∧ (k : Int) + 1 ≤ e
      · simp only [loadGo, if_neg hbreak, if_pos hcond, List.enumFrom, List.filter_cons,
          decide_eq_true hcond, List.map_cons, ih (k + 1)]
        simp
      · simp only [loadGo, if_neg hbreak, if_neg hcond, List.enumFrom, List.filter_cons,
          decide_eq_false hcond, ih (k + 1)]
        simp

/-- Claim C3: loadSourceContext returns, in order, exactly the lines of the
file whose number lies in the window from max 1 (centerLine - radius) to
centerLine + radius, flagging exactly the line numbered centerLine as the
error line, and returns the empty sequence when the file cannot be opened. -/
theorem loadSourceContext_window (ls : List Str) (c r : Int) :
    loadSourceContext (some ls) c r =
      (ls.enum.filter
        (fun p => decide (max 1 (c - r) ≤ (p.1 : Int) + 1 ∧ (p.1 : Int) + 1 ≤ c + r))).map
        (fun p =>
          { Number := (p.1 : Int) + 1, Content := p.2
          , IsError := decide ((p.1 : Int) + 1 = c) })
    ∧ loadSourceContext none c r = [] := by
  constructor
  · have hmax : (if c - r < 1 then (1 : Int) else c - r) = max 1 (c - r) := by omega
    simp only [loadSourceContext, hmax, List.enum, loadGo_enumFrom]
  · rfl

/-- Claim C9: with the default MaxStackDepth of 10 and a caller chain holding
12 resolvable frames, buildStackTrace collects only 9 frames: the loop runs i
from skip+1 while i < skip+MaxStackDepth, one iteration short of the
configured maximum depth. -/
theorem buildStackTrace_off_by_one :
    (ErrorCatcher.buildStackTrace { Config := DefaultConfig }
        (List.replicate 12 { fn := some (str "main.work"), file := str "main.go", line := 7 })
        0).length = 9 ∧ (9 : Nat) ≠ 10 := by
  constructor
  · rfl
  · decide

theorem escapes_ne_nil : ∀ t ∈ ansiEscapes, t ≠ [] := by decide

theorem escapes_head : ∀ t ∈ ansiEscapes, t.head? = some escChar := by decide

theorem escapes_no_mutual_pre :
    ∀ p ∈ ansiEscapes, ∀ t ∈ ansiEscapes, p ≠ t → isPre p t = false ∧ isPre t p = false := by
  decide

theorem escapes_tail_clean : ∀ t ∈ ansiEscapes, ∀ ch ∈ t.tail, ch ≠ escChar := by decide

theorem escapes_has_esc : ∀ t ∈ ansiEscapes, escChar ∈ t := by decide

theorem isPre_append_self : ∀ (p b : Str), isPre p (p ++ b) = true := by
  intro p
  induction p with
  | nil => intro b; rfl
  | cons c cs ih => intro b; simp [isPre, ih]

theorem raGo_fuel_eq (pat rep : Str) (hpat : pat ≠ []) :
    ∀ (n : Nat) (s : Str), s.length ≤ n → ∀ (f g : Nat), s.length ≤ f → s.length ≤ g →
      raGo pat rep f s = raGo pat rep g s := by
  intro n
  induction n with
  | zero =>
    intro s hs f g _ _
    have hnil : s = [] := List.length_eq_zero.mp (Nat.le_zero.mp hs)
    subst hnil
    cases f <;> cases g <;> rfl
  | succ n ih =>
    intro s hs f g hf hg
    cases s with
    | nil => cases f <;> cases g <;> rfl
    | cons c cs =>
      have hplen : 1 ≤ pat.length := by
        cases pat with
        | nil => exact absurd rfl hpat
        | cons _ _ => simp
      cases f with
      | zero => simp at hf
      | succ f' =>
        cases g with
        | zero => simp at hg
        | succ g' =>
          simp only [raGo]
          simp only [List.length_cons] at hs hf hg
          by_cases hp : isPre pat (c :: cs) = true
          · rw [if_pos hp, if_pos hp]
            congr 1
            have hd : ((c :: cs).drop pat.length).length ≤ n := by
              rw [List.length_drop]
              simp only [List.length_cons]
              omega
            exact ih _ hd f' g'
              (by rw [List.length_drop]; simp only [List.length_cons]; omega)
              (by rw [List.length_drop]; simp only [List.length_cons]; omega)
          · rw [if_neg hp, if_neg hp]
            congr 1
            exact ih cs (by omega) f' g' (by omega) (by omega)

theorem replaceAll_nil (pat rep : Str) : replaceAll [] pat rep = [] := by
  by_cases h : pat = [] <;> simp [replaceAll, h, raGo]

theorem replaceAll_pos (pat rep s : Str) (hpat : pat ≠ []) (h : isPre pat s = true) :
    replaceAll s pat rep = rep ++ replaceAll (s.drop pat.length) pat rep := by
  have hplen : 1 ≤ pat.length := by
    cases pat with
    | nil => exact absurd rfl hpat
    | cons _ _ => simp
  cases s with
  | nil =>
    cases pat with
    | nil => exact absurd rfl hpat
    | cons p ps => simp [isPre] at h
  | cons c cs =>
    unfold replaceAll
    rw [if_neg hpat, if_neg hpat]
    have hstep : raGo pat rep (c :: cs).length (c :: cs) =
        rep ++ raGo pat rep cs.length ((c :: cs).drop pat.length) := by
      simp only [List.length_cons, raGo, if_pos h]
    rw [hstep]
    congr 1
    exact raGo_fuel_eq pat rep hpat ((c :: cs).length) _
      (by rw [List.length_drop]; omega) cs.length _
      (by rw [List.length_drop]; simp only [List.length_cons]; omega) (le_refl _)

theorem replaceAll_neg (pat rep : Str) (c : Char) (cs : Str) (hpat : pat ≠ [])
    (h : isPre pat (c :: cs) = false) :
    replaceAll (c :: cs) pat rep = c :: replaceAll cs pat rep := by
  unfold replaceAll
  rw [if_neg hpat, if_neg hpat]
  simp only [List.length_cons, raGo, if_neg (by simp [h] : ¬ isPre pat (c :: cs) = true)]

theorem replaceAll_clean_append (pat : Str) (hpat : pat ∈ ansiEscapes) (a b : Str)
    (ha : ∀ ch ∈ a, ch ≠ escChar) :
    replaceAll (a ++ b) pat [] = a ++ replaceAll b pat [] := by
  induction a with
  | nil => simp
  | cons c a' ih =>
    have hne : pat ≠ [] := escapes_ne_nil pat hpat
    have hcne : c ≠ escChar := ha c (by simp)
    have hfalse : isPre pat (c :: (a' ++ b)) = false := by
      cases hpc : pat with
      | nil => exact absurd hpc hne
      | cons p pr =>
        have hp : p = escChar := by
          have := escapes_head pat hpat
          rw [hpc] at this
          simpa using this
        simp only [isPre]
        rw [if_neg (by rw [hp]; exact fun hh => hcne hh.symm)]
    rw [List.cons_append, replaceAll_neg pat [] c (a' ++ b) hne hfalse,
      ih (fun ch hch => ha ch (by simp [hch]))]
    rfl

theorem replaceAll_clean_id (pat : Str) (hpat : pat ∈ ansiEscapes) (a : Str)
    (ha : ∀ ch ∈ a, ch ≠ escChar) : replaceAll a pat [] = a := by
  have h := replaceAll_clean_append pat hpat a [] ha
  simpa [replaceAll_nil] using h

theorem isPre_false_append (b : Str) : ∀ (tokn pat : Str), isPre pat tokn = false →
    isPre tokn pat = false → isPre pat (tokn ++ b) = false := by
  intro tokn
  induction tokn with
  | nil =>
    intro pat _ h2
    simp [isPre] at h2
  | cons t ts ih =>
    intro pat h1 h2
    cases pat with
    | nil => simp [isPre] at h1
    | cons p ps =>
      by_cases hpt : p = t
      · subst hpt
        simp [isPre] at h1 h2 ⊢
        exact ih ps h1 h2
      · simp only [List.cons_append, isPre, if_neg hpt]

theorem replaceAll_tok_append (pat tokn b : Str) (hp : pat ∈ ansiEscapes)
    (ht : tokn ∈ ansiEscapes) :
    replaceAll (tokn ++ b) pat [] =
      (if pat = tokn then ([] : Str) else tokn) ++ replaceAll b pat [] := by
  by_cases he : pat = tokn
  · subst he
    rw [if_pos rfl, replaceAll_pos pat [] (pat ++ b) (escapes_ne_nil pat hp)
      (isPre_append_self pat b)]
    simp [List.drop_left]
  · rw [if_neg he]
    have hmut := escapes_no_mutual_pre pat hp tokn ht he
    have hfalse : isPre pat (tokn ++ b) = false := isPre_false_append b tokn pat hmut.1 hmut.2
    cases tokn with
    | nil => exact absurd rfl (escapes_ne_nil [] ht)
    | cons t ts =>
      rw [List.cons_append, replaceAll_neg pat [] t (ts ++ b) (escapes_ne_nil pat hp)
        (by rw [← List.cons_append]; exact hfalse),
        replaceAll_clean_append pat hp ts b (escapes_tail_clean (t :: ts) ht)]
      rfl

theorem flatten_cons (p : Piece) (ps : List Piece) :
    flatten (p :: ps) = p.content ++ flatten ps := by
  simp [flatten]

theorem flatten_append (a b : List Piece) : flatten (a ++ b) = flatten a ++ flatten b := by
  simp [flatten]

theorem zeroOne_WF (pat : Str) (ps : List Piece) (h : piecesWF ps) :
    piecesWF (ps.map (zeroOne pat)) := by
  intro q hq
  rcases List.mem_map.mp hq with ⟨p, hp, rfl⟩
  have hok := h p hp
  cases p with
  | txt s => simpa [zeroOne] using hok
  | tok t =>
    by_cases ht : t = pat
    · simp [zeroOne, ht, PieceOK]
    · simpa [zeroOne, ht] using hok

theorem strip_one (pat : Str) (hp : pat ∈ ansiEscapes) :
    ∀ (ps : List Piece), piecesWF ps →
      replaceAll (flatten ps) pat [] = flatten (ps.map (zeroOne pat)) := by
  intro ps
  induction ps with
  | nil => intro _; simp [flatten, replaceAll_nil]
  | cons p rest ih =>
    intro h
    have hok : PieceOK p := h p (by simp)
    have hrest : piecesWF rest := fun q hq => h q (by simp [hq])
    cases p with
    | txt s =>
      rw [flatten_cons]
      show replaceAll (s ++ flatten rest) pat [] = _
      rw [replaceAll_clean_append pat hp s _ hok, ih hrest]
      simp [flatten_cons, zeroOne, Piece.content]
    | tok t =>
      rw [flatten_cons]
      show replaceAll (t ++ flatten rest) pat [] = _
      have hokt : t ∈ ansiEscapes := hok
      rw [replaceAll_tok_append pat t _ hp hokt, ih hrest]
      by_cases he : pat = t
      · simp [zeroOne, flatten_cons, Piece.content, he]
      · have he' : ¬ t = pat := fun hh => he hh.symm
        simp [zeroOne, flatten_cons, Piece.content, he, he']

theorem strip_fold : ∀ (L : List Str), (∀ t ∈ L, t ∈ ansiEscapes) →
    ∀ (ps : List Piece), piecesWF ps →
      L.foldl (fun r e => replaceAll r e []) (flatten ps) = flatten (ps.map (zeroIn L)) := by
  intro L
  induction L with
  | nil =>
    intro _ ps _
    rw [List.foldl_nil,
      show zeroIn ([] : List Str) = id from funext fun p => by cases p <;> simp [zeroIn],
      List.map_id]
  | cons pat rest ih =>
    intro hL ps hWF
    have hpat : pat ∈ ansiEscapes := hL pat (by simp)
    rw [List.foldl_cons, strip_one pat hpat ps hWF,
      ih (fun t ht => hL t (by simp [ht])) (ps.map (zeroOne pat)) (zeroOne_WF pat ps hWF),
      List.map_map]
    have hcomp : zeroIn rest ∘ zeroOne pat = zeroIn (pat :: rest) := by
      funext p
      cases p with
      | txt s => simp [zeroIn, zeroOne, Function.comp]
      | tok t =>
        by_cases hpq : t = pat
        · simp [zeroIn, zeroOne, Function.comp, hpq]
        · by_cases hr : t ∈ rest <;>
            simp [zeroIn, zeroOne, Function.comp, hpq, hr, List.mem_cons]
    rw [hcomp]

theorem map_zeroIn_eq_stripToks (ps : List Piece) (h : piecesWF ps) :
    ps.map (zeroIn ansiEscapes) = stripToks ps := by
  induction ps with
  | nil => rfl
  | cons p rest ih =>
    have hok := h p (by simp)
    have hrest : piecesWF rest := fun q hq => h q (by simp [hq])
    cases p with
    | txt s => simp [stripToks, zeroIn, ih hrest]
    | tok t =>
      have hmem : t ∈ ansiEscapes := hok
      simp [stripToks, zeroIn, hmem, ih hrest]

theorem stripANSI_flatten (ps : List Piece) (h : piecesWF ps) :
    stripANSI (flatten ps) = flatten (stripToks ps) := by
  unfold stripANSI
  rw [strip_fold ansiEscapes (fun t ht => ht) ps h, map_zeroIn_eq_stripToks ps h]

theorem flatten_stripToks_clean (ps : List Piece) (h : piecesWF ps) :
    ∀ ch ∈ flatten (stripToks ps), ch ≠ escChar := by
  induction ps with
  | nil => simp [flatten, stripToks]
  | cons p rest ih =>
    have hok := h p (by simp)
    have hrest : piecesWF rest := fun q hq => h q (by simp [hq])
    intro ch hch
    cases p with
    | txt s =>
      simp only [stripToks, List.map_cons, flatten_cons, Piece.content] at hch
      rcases List.mem_append.mp hch with hl | hr
      · exact hok ch hl
      · exact ih hrest ch hr
    | tok t =>
      simp only [stripToks, List.map_cons, flatten_cons, Piece.content,
        List.nil_append] at hch
      exact ih hrest ch hch

theorem clean_no_tok (m : Str) (hm : ∀ ch ∈ m, ch ≠ escChar) :
    ∀ t ∈ ansiEscapes, ¬ t <:+: m := by
  intro t ht hinf
  exact hm escChar (hinf.subset (escapes_has_esc t ht)) rfl

theorem clean_append {a b : Str} (ha : ∀ ch ∈ a, ch ≠ escChar)
    (hb : ∀ ch ∈ b, ch ≠ escChar) : ∀ ch ∈ a ++ b, ch ≠ escChar := by
  intro ch hch
  rcases List.mem_append.mp hch with h | h
  · exact ha ch h
  · exact hb ch h

theorem digitChar_ne_esc (n : Nat) : digitChar n ≠ escChar := by
  rcases n with _|_|_|_|_|_|_|_|_|_|n <;> try decide
  show ('0' : Char) ≠ escChar
  decide

theorem natStrGo_clean : ∀ (f n : Nat), ∀ ch ∈ natStrGo f n, ch ≠ escChar := by
  intro f
  induction f with
  | zero => intro n ch hch; simp [natStrGo] at hch
  | succ f ih =>
    intro n ch hch
    simp only [natStrGo] at hch
    by_cases h : n < 10
    · rw [if_pos h] at hch
      simp only [List.mem_singleton] at hch
      subst hch
      exact digitChar_ne_esc n
    · rw [if_neg h] at hch
      rcases List.mem_append.mp hch with h1 | h2
      · exact ih (n / 10) ch h1
      · simp only [List.mem_singleton] at h2
        subst h2
        exact digitChar_ne_esc (n % 10)

theorem natStr_clean (n : Nat) : ∀ ch ∈ natStr n, ch ≠ escChar := natStrGo_clean (n + 1) n

theorem intStr_clean (i : Int) : ∀ ch ∈ intStr i, ch ≠ escChar := by
  unfold intStr
  split
  · intro ch hch
    rcases List.mem_cons.mp hch with rfl | h
    · decide
    · exact natStr_clean _ ch h
  · exact natStr_clean _

theorem padLeft_clean (w : Nat) (s : Str) (hs : ∀ ch ∈ s, ch ≠ escChar) :
    ∀ ch ∈ padLeft w s, ch ≠ escChar := by
  unfold padLeft
  refine clean_append ?_ hs
  intro ch hch
  have := List.eq_of_mem_replicate hch
  subst this
  decide

theorem foldl_slash_clean : ∀ (s acc : Str),
    (∀ ch ∈ acc, ch ≠ escChar) → (∀ ch ∈ s, ch ≠ escChar) →
    ∀ ch ∈ s.foldl (fun acc c => if c = '/' then [] else acc ++ [c]) acc, ch ≠ escChar := by
  intro s
  induction s with
  | nil => intro acc hacc _ ch hch; exact hacc ch hch
  | cons c0 s' ih =>
    intro acc hacc hs ch hch
    simp only [List.foldl_cons] at hch
    have hstep : ∀ x ∈ (if c0 = '/' then [] else acc ++ [c0]), x ≠ escChar := by
      by_cases hc : c0 = '/'
      · simp [hc]
      · rw [if_neg hc]
        refine clean_append hacc ?_
        intro x hx
        simp only [List.mem_singleton] at hx
        rw [hx]
        exact hs c0 (by simp)
    exact ih _ hstep (fun x hx => hs x (by simp [hx])) ch hch

theorem baseName_clean (s : Str) (hs : ∀ ch ∈ s, ch ≠ escChar) :
    ∀ ch ∈ baseName s, ch ≠ escChar :=
  foldl_slash_clean s [] (by simp) hs

theorem piecesWF_append {a b : List Piece} (ha : piecesWF a) (hb : piecesWF b) :
    piecesWF (a ++ b) := by
  intro p hp
  rcases List.mem_append.mp hp with h | h
  · exact ha p h
  · exact hb p h

theorem piecesWF_flatten_map {α : Type} (f : α → List Piece) (ls : List α)
    (h : ∀ a ∈ ls, piecesWF (f a)) : piecesWF ((ls.map f).flatten) := by
  intro p hp
  rcases List.mem_flatten.mp hp with ⟨l, hl, hpl⟩
  rcases List.mem_map.mp hl with ⟨a, ha, rfl⟩
  exact h a ha p hpl

theorem enumFrom_snd_mem {α : Type} : ∀ (l : List α) (k : Nat) (q : Nat × α),
    q ∈ List.enumFrom k l → q.2 ∈ l := by
  intro l
  induction l with
  | nil => intro k q hq; simp [List.enumFrom] at hq
  | cons a rest ih =>
    intro k q hq
    simp only [List.enumFrom, List.mem_cons] at hq
    rcases hq with rfl | hq
    · simp
    · simp [ih (k + 1) q hq]

theorem headerPieces_WF (cfg : ErrorConfig) (info : ErrorInfo)
    (hcode : ∀ ch ∈ info.ErrorCode, ch ≠ escChar)
    (hmsg : ∀ ch ∈ info.Error, ch ≠ escChar) :
    piecesWF (headerPieces cfg info) := by
  intro p hp
  unfold headerPieces at hp
  cases hcu : cfg.UseColors with
  | false =>
    rw [hcu, if_neg Bool.false_ne_true] at hp
    simp only [List.mem_singleton] at hp
    subst hp
    exact clean_append (clean_append (clean_append (clean_append (by decide) hcode)
      (by decide)) hmsg) (by decide)
  | true =>
    rw [hcu, if_pos rfl] at hp
    simp only [List.mem_cons, List.not_mem_nil, or_false] at hp
    rcases hp with rfl|rfl|rfl|rfl|rfl|rfl|rfl|rfl|rfl|rfl|rfl
    · decide
    · decide
    · decide
    · exact hcode
    · decide
    · decide
    · decide
    · decide
    · exact hmsg
    · decide
    · decide

theorem locationPieces_WF (cfg : ErrorConfig) (info : ErrorInfo)
    (hfile : ∀ ch ∈ info.File, ch ≠ escChar) :
    piecesWF (locationPieces cfg info) := by
  intro p hp
  unfold locationPieces at hp
  cases hcu : cfg.UseColors with
  | false =>
    rw [hcu, if_neg Bool.false_ne_true] at hp
    simp only [List.mem_singleton] at hp
    subst hp
    exact clean_append (clean_append (clean_append (clean_append (by decide)
      (baseName_clean _ hfile)) (by decide)) (intStr_clean _)) (by decide)
  | true =>
    rw [hcu, if_pos rfl] at hp
    simp only [List.mem_cons, List.not_mem_nil, or_false] at hp
    rcases hp with rfl|rfl|rfl|rfl|rfl|rfl|rfl|rfl|rfl|rfl
    · decide
    · decide
    · decide
    · decide
    · decide
    · decide
    · exact baseName_clean _ hfile
    · decide
    · exact intStr_clean _
    · decide

theorem sourceLinePieces_WF (cfg : ErrorConfig) (padding : Nat) (sl : SourceLine)
    (hcontent : ∀ ch ∈ sl.Content, ch ≠ escChar) :
    piecesWF (sourceLinePieces cfg padding sl) := by
  have hnum : ∀ ch ∈ padLeft padding (intStr sl.Number), ch ≠ escChar :=
    padLeft_clean _ _ (intStr_clean _)
  have hspaces : ∀ ch ∈ List.replicate padding ' ', ch ≠ escChar := by
    intro ch hch
    have h0 := List.eq_of_mem_replicate hch
    rw [h0]
    decide
  intro p hp
  cases herr : sl.IsError <;> cases hcu : cfg.UseColors <;>
    simp only [sourceLinePieces, herr, hcu, eq_self_iff_true, Bool.false_eq_true,
      if_true, if_false, List.cons_append, List.nil_append] at hp <;>
    fin_cases hp <;>
    first
      | exact hnum
      | exact hcontent
      | exact hspaces
      | decide
      | exact clean_append (clean_append (clean_append hnum (by decide)) hcontent) (by decide)
      | exact clean_append (clean_append hspaces (by decide)) (by decide)

theorem sourceBlockPieces_WF (cfg : ErrorConfig) (info : ErrorInfo)
    (hsrc : ∀ sl ∈ info.SourceLines, ∀ ch ∈ sl.Content, ch ≠ escChar) :
    piecesWF (sourceBlockPieces cfg info) := by
  unfold sourceBlockPieces
  split
  · refine piecesWF_append (piecesWF_append ?_ ?_) ?_
    · intro p hp
      simp only [List.mem_singleton] at hp
      rw [hp]
      decide
    · exact piecesWF_flatten_map _ _ (fun sl hsl => sourceLinePieces_WF cfg _ sl (hsrc sl hsl))
    · intro p hp
      simp only [List.mem_singleton] at hp
      rw [hp]
      decide
  · intro p hp
    simp at hp

theorem contextItemPieces_WF (cfg : ErrorConfig) (kv : Str × CtxVal)
    (hk : ∀ ch ∈ kv.1, ch ≠ escChar) (hv : ∀ ch ∈ displayVal kv.2, ch ≠ escChar) :
    piecesWF (contextItemPieces cfg kv) := by
  intro p hp
  cases hcu : cfg.UseColors <;>
    simp only [contextItemPieces, hcu, eq_self_iff_true, Bool.false_eq_true, if_true,
      if_false] at hp <;>
    fin_cases hp <;>
    first
      | exact hk
      | exact hv
      | decide
      | exact clean_append (clean_append (clean_append (clean_append (by decide) hk)
          (by decide)) hv) (by decide)

theorem contextBlockPieces_WF (cfg : ErrorConfig) (info : ErrorInfo)
    (hctx : ∀ kv ∈ info.Context,
      (∀ ch ∈ kv.1, ch ≠ escChar) ∧ (∀ ch ∈ displayVal kv.2, ch ≠ escChar)) :
    piecesWF (contextBlockPieces cfg info) := by
  unfold contextBlockPieces
  split
  · refine piecesWF_append (piecesWF_append ?_ ?_) ?_
    · intro p hp
      cases hcu : cfg.UseColors <;>
        simp only [hcu, eq_self_iff_true, Bool.false_eq_true, if_true, if_false] at hp <;>
        fin_cases hp <;> decide
    · exact piecesWF_flatten_map _ _
        (fun kv hkv => contextItemPieces_WF cfg kv (hctx kv hkv).1 (hctx kv hkv).2)
    · intro p hp
      simp only [List.mem_singleton] at hp
      rw [hp]
      decide
  · intro p hp
    simp at hp

theorem suggestionPieces_WF (cfg : ErrorConfig) (info : ErrorInfo)
    (hsugg : ∀ ch ∈ info.Suggestion, ch ≠ escChar) :
    piecesWF (suggestionPieces cfg info) := by
  unfold suggestionPieces
  split
  · refine piecesWF_append ?_ ?_
    · intro p hp
      cases hcu : cfg.UseColors <;>
        simp only [hcu, eq_self_iff_true, Bool.false_eq_true, if_true, if_false] at hp <;>
        fin_cases hp <;>
        first
          | exact hsugg
          | decide
          | exact clean_append (clean_append (by decide) hsugg) (by decide)
    · intro p hp
      simp only [List.mem_singleton] at hp
      rw [hp]
      decide
  · intro p hp
    simp at hp

theorem stackFramePieces_WF (cfg : ErrorConfig) (iframe : Nat × StackFrame)
    (hfn : ∀ ch ∈ iframe.2.Function, ch ≠ escChar)
    (hfile : ∀ ch ∈ iframe.2.File, ch ≠ escChar) :
    piecesWF (stackFramePieces cfg iframe) := by
  have hidx : ∀ ch ∈ padLeft 2 (natStr iframe.1), ch ≠ escChar :=
    padLeft_clean _ _ (natStr_clean _)
  have hbase : ∀ ch ∈ baseName iframe.2.File, ch ≠ escChar := baseName_clean _ hfile
  have hline : ∀ ch ∈ intStr iframe.2.Line, ch ≠ escChar := intStr_clean _
  intro p hp
  cases hcu : cfg.UseColors <;>
    simp only [stackFramePieces, hcu, eq_self_iff_true, Bool.false_eq_true, if_true,
      if_false] at hp <;>
    fin_cases hp <;>
    first
      | exact hidx
      | exact hfn
      | exact hbase
      | exact hline
      | decide
      | exact clean_append (clean_append (clean_append (clean_append (clean_append
          (clean_append (clean_append (clean_append (by decide) hidx) (by decide)) hfn)
          (by decide)) hbase) (by decide)) hline) (by decide)

theorem stackBlockPieces_WF (cfg : ErrorConfig) (info : ErrorInfo)
    (hstk : ∀ f ∈ info.Stack,
      (∀ ch ∈ f.File, ch ≠ escChar) ∧ (∀ ch ∈ f.Function, ch ≠ escChar)) :
    piecesWF (stackBlockPieces cfg info) := by
  unfold stackBlockPieces
  split
  · refine piecesWF_append (piecesWF_append ?_ ?_) ?_
    · intro p hp
      cases hcu : cfg.UseColors <;>
        simp only [hcu, eq_self_iff_true, Bool.false_eq_true, if_true, if_false] at hp <;>
        fin_cases hp <;> decide
    · refine piecesWF_flatten_map _ _ ?_
      intro q hq
      have hmem : q.2 ∈ info.Stack := enumFrom_snd_mem info.Stack 0 q hq
      exact stackFramePieces_WF cfg q (hstk q.2 hmem).2 (hstk q.2 hmem).1
    · intro p hp
      simp only [List.mem_singleton] at hp
      rw [hp]
      decide
  · intro p hp
    simp at hp

theorem renderPieces_WF (cfg : ErrorConfig) (info : ErrorInfo) (h : cleanInfo info = true) :
    piecesWF (renderPieces cfg info) := by
  simp only [cleanInfo, Bool.and_eq_true, noEsc, List.all_eq_true, bne_iff_ne] at h
  obtain ⟨⟨⟨⟨⟨⟨hcode, hmsg⟩, hfile⟩, hsugg⟩, hsrc⟩, hctx⟩, hstk⟩ := h
  unfold renderPieces
  refine piecesWF_append (piecesWF_append (piecesWF_append (piecesWF_append
    (piecesWF_append ?_ ?_) ?_) ?_) ?_) ?_
  · exact headerPieces_WF cfg info hcode hmsg
  · exact locationPieces_WF cfg info hfile
  · exact sourceBlockPieces_WF cfg info hsrc
  · exact contextBlockPieces_WF cfg info hctx
  · exact suggestionPieces_WF cfg info hsugg
  · exact stackBlockPieces_WF cfg info hstk

theorem stripToks_append (a b : List Piece) :
    stripToks (a ++ b) = stripToks a ++ stripToks b := by
  simp [stripToks]

theorem flatten_stripToks_flatten_map {α : Type} (f g : α → List Piece) (ls : List α)
    (h : ∀ a ∈ ls, flatten (stripToks (f a)) = flatten (g a)) :
    flatten (stripToks ((ls.map f).flatten)) = flatten ((ls.map g).flatten) := by
  induction ls with
  | nil => rfl
  | cons a rest ih =>
    simp only [List.map_cons, List.flatten_cons, stripToks_append, flatten_append]
    rw [h a (by simp), ih (fun x hx => h x (by simp [hx]))]

theorem headerPieces_strip (cfg : ErrorConfig) (info : ErrorInfo) :
    flatten (stripToks (headerPieces cfg info)) =
      flatten (headerPieces { cfg with UseColors := false } info) := by
  cases hcu : cfg.UseColors <;>
    simp [headerPieces, hcu, stripToks, flatten, Piece.content, List.append_assoc]

theorem locationPieces_strip (cfg : ErrorConfig) (info : ErrorInfo) :
    flatten (stripToks (locationPieces cfg info)) =
      flatten (locationPieces { cfg with UseColors := false } info) := by
  cases hcu : cfg.UseColors <;>
    simp [locationPieces, hcu, stripToks, flatten, Piece.content, List.append_assoc] <;>
    try rfl

theorem sourceLinePieces_strip (cfg : ErrorConfig) (padding : Nat) (sl : SourceLine) :
    flatten (stripToks (sourceLinePieces cfg padding sl)) =
      flatten (sourceLinePieces { cfg with UseColors := false } padding sl) := by
  cases herr : sl.IsError <;> cases hcu : cfg.UseColors <;>
    simp [sourceLinePieces, herr, hcu, stripToks, flatten, Piece.content,
      stripToks_append, flatten_append, List.append_assoc] <;>
    try rfl

theorem sourceBlockPieces_strip (cfg : ErrorConfig) (info : ErrorInfo) :
    flatten (stripToks (sourceBlockPieces cfg info)) =
      flatten (sourceBlockPieces { cfg with UseColors := false } info) := by
  unfold sourceBlockPieces
  by_cases hc : cfg.ShowSourceCode = true ∧ 0 < info.SourceLines.length
  · rw [if_pos hc, if_pos (by exact hc)]
    simp only [stripToks_append, flatten_append]
    rw [flatten_stripToks_flatten_map _ _ _ (fun sl _ => sourceLinePieces_strip cfg _ sl)]
    rfl
  · rw [if_neg hc, if_neg (by exact hc)]
    rfl

theorem contextItemPieces_strip (cfg : ErrorConfig) (kv : Str × CtxVal) :
    flatten (stripToks (contextItemPieces cfg kv)) =
      flatten (contextItemPieces { cfg with UseColors := false } kv) := by
  cases hcu : cfg.UseColors <;>
    simp [contextItemPieces, hcu, stripToks, flatten, Piece.content, List.append_assoc] <;>
    try rfl

theorem contextBlockPieces_strip (cfg : ErrorConfig) (info : ErrorInfo) :
    flatten (stripToks (contextBlockPieces cfg info)) =
      flatten (contextBlockPieces { cfg with UseColors := false } info) := by
  by_cases hc : 0 < info.Context.length
  · cases hcu : cfg.UseColors <;>
      simp only [contextBlockPieces, hcu, hc, eq_self_iff_true, Bool.false_eq_true,
        if_true, if_false, stripToks_append, flatten_append] <;>
      rw [flatten_stripToks_flatten_map _ _ _ (fun kv _ => contextItemPieces_strip cfg kv)] <;>
      rfl
  · have hc' : ¬ 0 < info.Context.length := hc
    simp only [contextBlockPieces, if_neg hc, if_neg hc']
    rfl

theorem suggestionPieces_strip (cfg : ErrorConfig) (info : ErrorInfo) :
    flatten (stripToks (suggestionPieces cfg info)) =
      flatten (suggestionPieces { cfg with UseColors := false } info) := by
  by_cases hc : cfg.ShowSuggestions = true ∧ info.Suggestion ≠ []
  · obtain ⟨hc1, hc2⟩ := hc
    cases hcu : cfg.UseColors <;>
      simp [suggestionPieces, hcu, hc1, hc2, flatten, stripToks, Piece.content,
        List.append_assoc] <;>
      try rfl
  · simp only [suggestionPieces, if_neg hc]
    rfl

theorem stackFramePieces_strip (cfg : ErrorConfig) (iframe : Nat × StackFrame) :
    flatten (stripToks (stackFramePieces cfg iframe)) =
      flatten (stackFramePieces { cfg with UseColors := false } iframe) := by
  cases hcu : cfg.UseColors <;>
    simp [stackFramePieces, hcu, stripToks, flatten, Piece.content, List.append_assoc] <;>
    try rfl

theorem stackBlockPieces_strip (cfg : ErrorConfig) (info : ErrorInfo) :
    flatten (stripToks (stackBlockPieces cfg info)) =
      flatten (stackBlockPieces { cfg with UseColors := false } info) := by
  by_cases hc : cfg.ShowStackTrace = true ∧ 0 < info.Stack.length
  · obtain ⟨hc1, hc2⟩ := hc
    cases hcu : cfg.UseColors <;>
      simp only [stackBlockPieces, hcu, hc1, hc2, eq_self_iff_true, Bool.false_eq_true,
        and_self, true_and, and_true, if_true, if_false, stripToks_append,
        flatten_append] <;>
      rw [flatten_stripToks_flatten_map _ _ _ (fun q _ => stackFramePieces_strip cfg q)] <;>
      rfl
  · simp only [stackBlockPieces, if_neg hc]
    rfl

theorem renderPieces_strip (cfg : ErrorConfig) (info : ErrorInfo) :
    flatten (stripToks (renderPieces cfg info)) =
      flatten (renderPieces { cfg with UseColors := false } info) := by
  unfold renderPieces
  simp only [stripToks_append, flatten_append]
  rw [headerPieces_strip, locationPieces_strip, sourceBlockPieces_strip,
    contextBlockPieces_strip, suggestionPieces_strip, stackBlockPieces_strip]

theorem handleError_console (e : ErrorCatcher) (info : ErrorInfo) :
    (ErrorCatcher.handleError e info).console = flatten (renderPieces (e.getConfig) info) :=
  rfl

theorem handleError_log (e : ErrorCatcher) (info : ErrorInfo) (m : Str)
    (hm : (ErrorCatcher.handleError e info).logText = some m) :
    m = stripANSI (flatten (renderPieces (e.getConfig) info)) := by
  by_cases hl : (e.getConfig).LogToFile ≠ []
  · have hsome : (ErrorCatcher.handleError e info).logText =
        some (stripANSI (flatten (renderPieces (e.getConfig) info))) := by
      simp [ErrorCatcher.handleError, hl]
    rw [hsome] at hm
    exact (Option.some.inj hm).symm
  · have hnone : (ErrorCatcher.handleError e info).logText = none := by
      simp [ErrorCatcher.handleError, hl]
    rw [hnone] at hm
    cases hm

/-- Claim C4 (amended): for every failure record whose text fields are free of
the ANSI escape character, stripping the ANSI styling tokens from the report
rendered with colors enabled yields exactly the report rendered with colors
disabled; the text appended to the log file is always the stripped copy of
the console text; and for such records the log text contains no escape
character and hence no styling token, regardless of the use_colors setting. -/
theorem render_color_strip_agrees (cfg : ErrorConfig) (e : ErrorCatcher) (info : ErrorInfo)
    (h : cleanInfo info = true) :
    stripANSI (flatten (renderPieces { cfg with UseColors := true } info)) =
      flatten (renderPieces { cfg with UseColors := false } info)
    ∧ (∀ m, (ErrorCatcher.handleError e info).logText = some m →
        m = stripANSI ((ErrorCatcher.handleError e info).console))
    ∧ (∀ m, (ErrorCatcher.handleError e info).logText = some m →
        (∀ ch ∈ m, ch ≠ escChar) ∧ ∀ t ∈ ansiEscapes, ¬ t <:+: m) := by
  refine ⟨?_, ?_, ?_⟩
  · rw [stripANSI_flatten _ (renderPieces_WF _ info h), renderPieces_strip]
  · intro m hm
    rw [handleError_log e info m hm, handleError_console]
  · intro m hm
    have hw := renderPieces_WF (e.getConfig) info h
    have hm' : m = flatten (stripToks (renderPieces (e.getConfig) info)) := by
      rw [handleError_log e info m hm, stripANSI_flatten _ hw]
    constructor
    · rw [hm']
      exact flatten_stripToks_clean _ hw
    · rw [hm']
      exact clean_no_tok _ (flatten_stripToks_clean _ hw)

/-- Claim C4 counterexample: a record whose failure message is itself the Red
styling token violates the claim as stated for every record: the plain render
keeps the message bytes, while stripping the colored render removes them. -/
theorem render_color_strip_counterexample :
    stripANSI (flatten (renderPieces { cfgMin with UseColors := true }
        { infoW with Error := Red })) ≠
      flatten (renderPieces { cfgMin with UseColors := false }
        { infoW with Error := Red }) := by
  decide

/-- Witness for render_color_strip_agrees at a concrete clean record. -/
theorem render_color_strip_witness :
    cleanInfo infoW = true ∧
    stripANSI (flatten (renderPieces { cfgMin with UseColors := true } infoW)) =
      flatten (renderPieces { cfgMin with UseColors := false } infoW) :=
  ⟨by decide, (render_color_strip_agrees cfgMin { Config := cfgMin } infoW (by decide)).1⟩

/-- Claim C5: the bytes of the rendered report depend on the order in which
the ranged Go map yields the context entries, an order Go randomizes per
iteration; two valid iteration orders of the same two-entry context map
produce different console bytes, so rendering the same record twice under the
same configuration is not guaranteed to be byte-identical. -/
theorem render_context_order_dependent :
    (ErrorCatcher.handleError { Config := cfgMin }
        { infoW with Context := [(str "a", CtxVal.vnum 1), (str "b", CtxVal.vnum 2)] }).console ≠
      (ErrorCatcher.handleError { Config := cfgMin }
        { infoW with Context := [(str "b", CtxVal.vnum 2), (str "a", CtxVal.vnum 1)] }).console := by
  decide

/-- Claim C7: for every chain of WithContext calls ending in Set, and for the
Err entry point, a nil failure is a complete no-op: no report is produced (no
console text, no log write, no exit — the absent Effects value), for every
configuration, including exit-on-report enabled. -/
theorem nil_error_noop (cfg : ErrorConfig) (k0 : Str) (v0 : CtxVal)
    (rest : List (Str × CtxVal)) (env env' : CallEnv) (sourceCtx stackCtx : CtxMap)
    (context : List CtxVal) :
    ContextualCatcher.Set
      (rest.foldl (fun c kv => c.WithContext kv.1 kv.2)
        (ErrorCatcher.WithContext { Config := cfg } k0 v0)) env none = (none, none)
    ∧ Err env' sourceCtx stackCtx none context = (none, none) :=
  ⟨rfl, rfl⟩

/-- Claim C10: the reporting entry points Err and ErrorCatcher.Set return
their error argument unchanged for every input, nil or non-nil. -/
theorem entry_points_return_error_unchanged (e : ErrorCatcher) (env env' : CallEnv)
    (sourceCtx stackCtx : CtxMap) (context : List CtxVal) (err : Option Str) :
    (Err env' sourceCtx stackCtx err context).2 = err
    ∧ (ErrorCatcher.Set e env err).2 = err := by
  cases err <;> exact ⟨rfl, rfl⟩

end GoCatch
